import Mathlib

/-!
Verification of the USPTO backend resolver (src/server.js).

The development shallow-embeds the request-scoped logic of the server:
the TTL cache (`getCached`, `setCache`), the client override store with
its name normalization (`normalizeClientName`), the admin upsert/delete
operations, and the two search operations
(`GET /api/patents/search`, `GET /api/trademarks/search`) as pure
functions over an explicit `ServerState`.  Network adapter calls are
modelled by an `AdapterOutcome` input value (the upstream either
resolves with a list of raw records, possibly empty, or throws), and
each search operation additionally returns the list of adapter names it
invoked, so that non-invocation of adapters is directly observable.
-/

namespace USPTO

/-- JS truthiness on a nullable string: `null`/`undefined` and the empty
string are falsy, every other string is truthy. -/
def jsTruthy : Option String → Bool
  | Option.none => false
  | Option.some s => s != ""

/-- JS `a || b` on nullable strings: `a` when truthy, else `b`. -/
def jsOr (a b : Option String) : Option String :=
  if jsTruthy a then a else b

/-- JS `String.prototype.toLowerCase()` restricted to the basic latin
range, as a per-character map (matches `Char.toLower`). -/
def jsToLower (s : String) : String :=
  String.mk (s.data.map Char.toLower)

/-- The character class `[a-z0-9]` of the regex in
`normalizeClientName` (`/[^a-z0-9]/g` strips the complement). -/
def isAlnumLower (c : Char) : Bool :=
  (97 ≤ c.toNat && c.toNat ≤ 122) || (48 ≤ c.toNat && c.toNat ≤ 57)

/-- Function `normalizeClientName` (src/server.js:104-106):
`name.toLowerCase().replace(/[^a-z0-9]/g, '')`. -/
def normalizeClientName (name : String) : String :=
  String.mk ((name.data.map Char.toLower).filter isAlnumLower)

/-- Canonical patent record shape (client database entries and mapped
PatentsView results).  All fields are nullable JSON strings. -/
structure PatentRecord where
  patent_number : Option String
  patent_title : Option String
  app_date : Option String
  patent_date : Option String
  status : Option String
  type' : Option String
deriving Repr, DecidableEq

/-- Canonical trademark record shape (client database entries and
mapped TSDR results). -/
structure TrademarkRecord where
  serialNumber : Option String
  mark : Option String
  filingDate : Option String
  status : Option String
  registrationDate : Option String
deriving Repr, DecidableEq

/-- The `source` field of a search result. -/
inductive Source where
  | client_database
  | uspto_api
  | none
  | error
deriving Repr, DecidableEq

/-- Aggregate returned by `GET /api/patents/search`. -/
structure PatentSearchResult where
  total : Nat
  granted : Nat
  applications : Nat
  list : List PatentRecord
  source : Source
  message : Option String
deriving Repr, DecidableEq

/-- Aggregate returned by `GET /api/trademarks/search`. -/
structure TrademarkSearchResult where
  total : Nat
  registered : Nat
  applications : Nat
  list : List TrademarkRecord
  source : Source
  message : Option String
deriving Repr, DecidableEq

/-- A value stored in the shared cache `Map` (keys are domain-prefixed,
so a patents lookup only ever sees `patents` data). -/
inductive CachedData where
  | patents (r : PatentSearchResult)
  | trademarks (r : TrademarkSearchResult)
deriving Repr, DecidableEq

/-- A cache entry: `{ data, timestamp: Date.now() }` (src/server.js:93-95). -/
structure CacheEntry where
  data : CachedData
  timestamp : Nat
deriving Repr, DecidableEq

/-- Constant `CACHE_TTL = 1000 * 60 * 60` milliseconds (src/server.js:83). -/
def CACHE_TTL : Nat := 1000 * 60 * 60

/-- Function `getCached` (src/server.js:85-91): returns the stored data only when
`Date.now() - cached.timestamp < CACHE_TTL`; otherwise behaves as
absent.  It never mutates the cache. -/
def getCached (key : String) (cache : String → Option CacheEntry) (now : Nat) :
    Option CachedData :=
  match cache key with
  | Option.some cached =>
      if now - cached.timestamp < CACHE_TTL then Option.some cached.data
      else Option.none
  | Option.none => Option.none

/-- Function `setCache` (src/server.js:93-95): stores the value with the current
timestamp, overwriting any prior entry at that key. -/
def setCache (key : String) (data : CachedData)
    (cache : String → Option CacheEntry) (now : Nat) :
    String → Option CacheEntry :=
  fun k => if k = key then Option.some { data := data, timestamp := now } else cache k

/-- An override record of the client database: display name plus raw
patent/trademark lists (src/server.js:258-262). -/
structure ClientRecord where
  name : String
  patents : List PatentRecord
  trademarks : List TrademarkRecord
deriving Repr, DecidableEq

/-- The mutable process state: the client override store and the TTL
cache, both keyed by strings. -/
structure ServerState where
  clientDatabase : String → Option ClientRecord
  cache : String → Option CacheEntry

/-- Outcome of one upstream adapter call: the request resolves with a
(possibly empty) list of raw provider records — a response whose body
lacks the expected array is checked via optional chaining and treated
exactly like an empty list — or the request throws with a message. -/
inductive AdapterOutcome (α : Type) where
  | ok (records : List α)
  | exn (message : String)
deriving Repr, DecidableEq

/-- HTTP responses produced by a handler: `res.json(body)` (200),
`res.status(400).json({error})`, `res.status(404).json({error})`. -/
inductive HttpResponse (α : Type) where
  | ok (body : α)
  | badRequest (error : String)
  | notFound (error : String)
deriving Repr, DecidableEq

/-- Raw PatentsView record, fields as requested by the query
(src/server.js:324). -/
structure PVPatent where
  patent_number : Option String
  patent_title : Option String
  patent_date : Option String
  app_date : Option String
deriving Repr, DecidableEq

/-- The map at src/server.js:330-333: spread the raw record and derive
`status` from presence (JS truthiness) of `patent_date`. -/
def mapPVPatent (p : PVPatent) : PatentRecord :=
  { patent_number := p.patent_number
    patent_title := p.patent_title
    app_date := p.app_date
    patent_date := p.patent_date
    status := Option.some (if jsTruthy p.patent_date then "Granted" else "Pending")
    type' := Option.none }

/-- Raw TSDR document, fields as read by the map at src/server.js:400-405. -/
structure TSDRDoc where
  applicationSerialNumber : Option String
  registrationNumber : Option String
  markLiteralElementText : Option String
  markDrawingCode : Option String
  applicationFilingDate : Option String
  markCurrentStatusExternalDescriptionText : Option String
deriving Repr, DecidableEq

/-- The map at src/server.js:400-405. -/
def mapTSDRDoc (tm : TSDRDoc) : TrademarkRecord :=
  { serialNumber := jsOr tm.applicationSerialNumber tm.registrationNumber
    mark := jsOr tm.markLiteralElementText tm.markDrawingCode
    filingDate := tm.applicationFilingDate
    status := tm.markCurrentStatusExternalDescriptionText
    registrationDate := Option.none }

/-- JS `String.prototype.includes`: the needle occurs as a contiguous
run somewhere in the haystack. -/
def containsSub (needle : List Char) : List Char → Bool
  | [] => needle.isEmpty
  | c :: t => needle.isPrefixOf (c :: t) || containsSub needle t

/-- The check `tm.status && tm.status.toLowerCase().includes('registered')`
(src/server.js:378-380 and 406-408). -/
def statusContainsRegistered : Option String → Bool
  | Option.none => false
  | Option.some s => (s != "") && containsSub "registered".data (jsToLower s).data

/-- The patent aggregate computed identically in the client-database and
USPTO-API branches (src/server.js:300-307 and 334-341): `granted` counts
records with a truthy `patent_date`, `applications` is the rest. -/
def patentAggregate (patents : List PatentRecord) (source : Source)
    (message : Option String) : PatentSearchResult :=
  let granted := (patents.filter (fun p => jsTruthy p.patent_date)).length
  { total := patents.length
    granted := granted
    applications := patents.length - granted
    list := patents
    source := source
    message := message }

/-- The trademark aggregate (src/server.js:378-387 and 406-414). -/
def trademarkAggregate (trademarks : List TrademarkRecord) (source : Source)
    (message : Option String) : TrademarkSearchResult :=
  let registered := (trademarks.filter (fun tm => statusContainsRegistered tm.status)).length
  { total := trademarks.length
    registered := registered
    applications := trademarks.length - registered
    list := trademarks
    source := source
    message := message }

/-- Fallthrough response of the patents handler (src/server.js:349-357);
note it is returned without any cache write. -/
def patentsNoneResult : PatentSearchResult :=
  { total := 0, granted := 0, applications := 0, list := []
    source := Source.none
    message := Option.some "No patents found in USPTO APIs. Add client to database for accurate data." }

/-- Fallthrough response of the trademarks handler (src/server.js:423-431). -/
def trademarksNoneResult : TrademarkSearchResult :=
  { total := 0, registered := 0, applications := 0, list := []
    source := Source.none
    message := Option.some "No trademarks found in USPTO APIs. Add client to database for accurate data." }

/-- Cache key of the patents handler (src/server.js:291): the raw
lowercased term, not the normalized one. -/
def patentsCacheKey (assignee : String) : String :=
  "patents:" ++ jsToLower assignee

/-- Cache key of the trademarks handler (src/server.js:369). -/
def trademarksCacheKey (owner : String) : String :=
  "trademarks:" ++ jsToLower owner

/-- Handler for `GET /api/patents/search` (src/server.js:282-357).  Inputs: the
`assignee` query parameter (absent or present), the server state, the
current time, and the outcome the PatentsView upstream would produce if
called.  Output: the HTTP response, the new state, and the list of
adapter names actually invoked. -/
def searchPatents (assignee : Option String) (st : ServerState) (now : Nat)
    (patentsViewOutcome : AdapterOutcome PVPatent) :
    HttpResponse CachedData × ServerState × List String :=
  match assignee with
  | Option.none => (HttpResponse.badRequest "Assignee parameter required", st, [])
  | Option.some a =>
    if a = "" then (HttpResponse.badRequest "Assignee parameter required", st, [])
    else
      let cacheKey := patentsCacheKey a
      match getCached cacheKey st.cache now with
      | Option.some cached => (HttpResponse.ok cached, st, [])
      | Option.none =>
        match st.clientDatabase (normalizeClientName a) with
        | Option.some client =>
          let result := patentAggregate client.patents Source.client_database Option.none
          (HttpResponse.ok (CachedData.patents result),
           { st with cache := setCache cacheKey (CachedData.patents result) st.cache now },
           [])
        | Option.none =>
          match patentsViewOutcome with
          | AdapterOutcome.ok pats =>
            if 0 < pats.length then
              let patents := pats.map mapPVPatent
              let result := patentAggregate patents Source.uspto_api Option.none
              (HttpResponse.ok (CachedData.patents result),
               { st with cache := setCache cacheKey (CachedData.patents result) st.cache now },
               ["patentsview"])
            else
              (HttpResponse.ok (CachedData.patents patentsNoneResult), st, ["patentsview"])
          | AdapterOutcome.exn _ =>
            (HttpResponse.ok (CachedData.patents patentsNoneResult), st, ["patentsview"])

/-- Handler for `GET /api/trademarks/search` (src/server.js:360-431). -/
def searchTrademarks (owner : Option String) (st : ServerState) (now : Nat)
    (tsdrOutcome : AdapterOutcome TSDRDoc) :
    HttpResponse CachedData × ServerState × List String :=
  match owner with
  | Option.none => (HttpResponse.badRequest "Owner parameter required", st, [])
  | Option.some o =>
    if o = "" then (HttpResponse.badRequest "Owner parameter required", st, [])
    else
      let cacheKey := trademarksCacheKey o
      match getCached cacheKey st.cache now with
      | Option.some cached => (HttpResponse.ok cached, st, [])
      | Option.none =>
        match st.clientDatabase (normalizeClientName o) with
        | Option.some client =>
          let result := trademarkAggregate client.trademarks Source.client_database Option.none
          (HttpResponse.ok (CachedData.trademarks result),
           { st with cache := setCache cacheKey (CachedData.trademarks result) st.cache now },
           [])
        | Option.none =>
          match tsdrOutcome with
          | AdapterOutcome.ok docs =>
            if 0 < docs.length then
              let trademarks := docs.map mapTSDRDoc
              let result := trademarkAggregate trademarks Source.uspto_api Option.none
              (HttpResponse.ok (CachedData.trademarks result),
               { st with cache := setCache cacheKey (CachedData.trademarks result) st.cache now },
               ["tsdr"])
            else
              (HttpResponse.ok (CachedData.trademarks trademarksNoneResult), st, ["tsdr"])
          | AdapterOutcome.exn _ =>
            (HttpResponse.ok (CachedData.trademarks trademarksNoneResult), st, ["tsdr"])

/-- Handler for `POST /admin/clients` (src/server.js:250-266): rejects a missing or
empty (falsy) `name`, otherwise inserts or replaces the record at
`normalizeClientName(name)`, defaulting the lists to `[]`.  The response
body carries the success message and the storage key. -/
def adminUpsertClient (name : Option String) (patents : Option (List PatentRecord))
    (trademarks : Option (List TrademarkRecord)) (st : ServerState) :
    HttpResponse (String × String) × ServerState :=
  match name with
  | Option.none => (HttpResponse.badRequest "Client name is required", st)
  | Option.some n =>
    if n = "" then (HttpResponse.badRequest "Client name is required", st)
    else
      let key := normalizeClientName n
      (HttpResponse.ok ("Client added successfully", key),
       { st with clientDatabase := fun k =>
           if k = key then
             Option.some { name := n, patents := patents.getD [], trademarks := trademarks.getD [] }
           else st.clientDatabase k })

/-- Handler for `DELETE /admin/clients/:name` (src/server.js:269-277). -/
def adminDeleteClient (name : String) (st : ServerState) :
    HttpResponse String × ServerState :=
  let key := normalizeClientName name
  match st.clientDatabase key with
  | Option.some _ =>
    (HttpResponse.ok "Client deleted",
     { st with clientDatabase := fun k => if k = key then Option.none else st.clientDatabase k })
  | Option.none => (HttpResponse.notFound "Client not found", st)

/-- The seeded override record for KidneyAide (src/server.js:17-79). -/
def kidneyAideRecord : ClientRecord :=
  { name := "KidneyAide"
    patents :=
      [ { patent_number := Option.some "18/751,463"
          patent_title := Option.some "Non-Provisional Patent Application"
          app_date := Option.some "2024-06-12"
          patent_date := Option.none
          status := Option.some "Pending - Non-Provisional"
          type' := Option.some "Non-Provisional" },
        { patent_number := Option.some "63/523,059"
          patent_title := Option.some "Provisional Patent Application"
          app_date := Option.some "2023-06-23"
          patent_date := Option.none
          status := Option.some "Provisional Application"
          type' := Option.some "Provisional" },
        { patent_number := Option.some "PCT/US24/35195"
          patent_title := Option.some "PCT International Application"
          app_date := Option.some "2024-06-23"
          patent_date := Option.none
          status := Option.some "PCT Application"
          type' := Option.some "PCT" },
        { patent_number := Option.some "IL-XXXXX"
          patent_title := Option.some "National Stage Application - Israel"
          app_date := Option.some "2024-08-15"
          patent_date := Option.none
          status := Option.some "National Stage - Israel"
          type' := Option.some "Foreign National" } ]
    trademarks :=
      [ { serialNumber := Option.some "97665342"
          mark := Option.some "KIDNEYAIDE"
          filingDate := Option.some "2022-11-15"
          status := Option.some "Registered"
          registrationDate := Option.some "2023-08-20" },
        { serialNumber := Option.some "97762036"
          mark := Option.some "KIDNEYAIDE"
          filingDate := Option.some "2023-01-20"
          status := Option.some "Registered"
          registrationDate := Option.some "2023-09-10" },
        { serialNumber := Option.some "97762371"
          mark := Option.some "KIDNEYAIDE"
          filingDate := Option.some "2023-01-21"
          status := Option.some "Registered"
          registrationDate := Option.some "2023-09-15" } ] }

/-- The process-start state: client database pre-loaded with the
KidneyAide record under the key `kidneyaide`, empty cache. -/
def initialState : ServerState :=
  { clientDatabase := fun k => if k = "kidneyaide" then Option.some kidneyAideRecord else Option.none
    cache := fun _ => Option.none }

/-! ### Lemmas about `Char.toLower` and `normalizeClientName` -/

theorem toLower_eq_self_of_isAlnumLower {c : Char} (h : isAlnumLower c = true) :
    Char.toLower c = c := by
  have h' : ¬(c.toNat ≥ 65 ∧ c.toNat ≤ 90) := by
    simp only [isAlnumLower, Bool.or_eq_true, Bool.and_eq_true, decide_eq_true_eq] at h
    omega
  simp only [Char.toLower]
  rw [if_neg h']

theorem toNat_ofNat_of_lt {m : Nat} (h : m < 55296) : (Char.ofNat m).toNat = m := by
  have hv : m.isValidChar := Or.inl h
  simp [Char.ofNat, dif_pos hv, Char.ofNatAux, Char.toNat, UInt32.toNat]

theorem toLower_toLower (c : Char) : Char.toLower (Char.toLower c) = Char.toLower c := by
  by_cases h : c.toNat ≥ 65 ∧ c.toNat ≤ 90
  · have h1 : Char.toLower c = Char.ofNat (c.toNat + 32) := by
      simp only [Char.toLower]; rw [if_pos h]
    have h2 : (Char.ofNat (c.toNat + 32)).toNat = c.toNat + 32 :=
      toNat_ofNat_of_lt (by omega)
    rw [h1]
    simp only [Char.toLower, h2]
    rw [if_neg (by omega)]
  · have h1 : Char.toLower c = c := by
      simp only [Char.toLower]; rw [if_neg h]
    rw [h1, h1]

theorem mem_normalize_isAlnumLower {s : String} {c : Char}
    (h : c ∈ (normalizeClientName s).data) : isAlnumLower c = true := by
  simp only [normalizeClientName] at h
  exact (List.mem_filter.mp h).2

theorem normalize_idem (s : String) :
    normalizeClientName (normalizeClientName s) = normalizeClientName s := by
  show String.mk ((((s.data.map Char.toLower).filter isAlnumLower).map Char.toLower).filter
    isAlnumLower) = String.mk ((s.data.map Char.toLower).filter isAlnumLower)
  have hmem : ∀ c ∈ (s.data.map Char.toLower).filter isAlnumLower, isAlnumLower c = true :=
    fun c hc => (List.mem_filter.mp hc).2
  have hmap : ((s.data.map Char.toLower).filter isAlnumLower).map Char.toLower
      = (s.data.map Char.toLower).filter isAlnumLower := by
    rw [List.map_congr_left (fun c hc => toLower_eq_self_of_isAlnumLower (hmem c hc))]
    exact List.map_id _
  rw [hmap, List.filter_eq_self.mpr hmem]

theorem normalize_jsToLower (s : String) :
    normalizeClientName (jsToLower s) = normalizeClientName s := by
  show String.mk (((s.data.map Char.toLower).map Char.toLower).filter isAlnumLower)
    = String.mk ((s.data.map Char.toLower).filter isAlnumLower)
  rw [List.map_map]
  exact congrArg String.mk (congrArg (List.filter isAlnumLower)
    (List.map_congr_left (fun c _ => toLower_toLower c)))

/-- Claim C7 (amended): `normalizeClientName` lowercases and strips every
character outside `[a-z0-9]` (every output character is in that class),
is idempotent, and is case-insensitive (pre-lowercasing the input does
not change the key); but the quoted example fails:
`normalize("Kidney-Aide, Inc.")` is `"kidneyaideinc"`, which differs
from `normalize("KIDNEYAIDE") = "kidneyaide"`.  The example holds with
the suffix dropped: `normalize("Kidney-Aide") = normalize("KIDNEYAIDE")`. -/
theorem C7_normalize_properties :
    (∀ s : String, normalizeClientName (normalizeClientName s) = normalizeClientName s) ∧
    (∀ s : String, normalizeClientName (jsToLower s) = normalizeClientName s) ∧
    (∀ (s : String) (c : Char), c ∈ (normalizeClientName s).data → isAlnumLower c = true) ∧
    normalizeClientName "Kidney-Aide" = normalizeClientName "KIDNEYAIDE" ∧
    normalizeClientName "Kidney-Aide, Inc." = "kidneyaideinc" :=
  ⟨normalize_idem, normalize_jsToLower,
   fun _ _ h => mem_normalize_isAlnumLower h, by decide, by decide⟩

/-- Claim C7 witness: the membership conjunct evaluated at a concrete
string and character. -/
theorem C7_normalize_properties_witness :
    ('k' ∈ (normalizeClientName "Kidney-Aide").data) ∧ isAlnumLower 'k' = true :=
  ⟨by decide, C7_normalize_properties.2.2.1 "Kidney-Aide" 'k' (by decide)⟩

/-- Claim C7 counterexample: the two names quoted in the spec do not
normalize identically (the `Inc` suffix survives normalization). -/
theorem C7_cex_quoted_example_fails :
    normalizeClientName "Kidney-Aide, Inc." ≠ normalizeClientName "KIDNEYAIDE" := by
  decide

/-! ### Aggregate invariants -/

theorem patentAggregate_invariant (l : List PatentRecord) (src : Source) (msg : Option String) :
    (patentAggregate l src msg).total
        = (patentAggregate l src msg).granted + (patentAggregate l src msg).applications ∧
    (patentAggregate l src msg).total = (patentAggregate l src msg).list.length := by
  have hle : (List.filter (fun p => jsTruthy p.patent_date) l).length ≤ l.length :=
    List.length_filter_le _ _
  refine ⟨?_, rfl⟩
  show l.length = (List.filter (fun p => jsTruthy p.patent_date) l).length
      + (l.length - (List.filter (fun p => jsTruthy p.patent_date) l).length)
  omega

theorem trademarkAggregate_invariant (l : List TrademarkRecord) (src : Source)
    (msg : Option String) :
    (trademarkAggregate l src msg).total
        = (trademarkAggregate l src msg).registered + (trademarkAggregate l src msg).applications ∧
    (trademarkAggregate l src msg).total = (trademarkAggregate l src msg).list.length := by
  have hle : (List.filter (fun tm => statusContainsRegistered tm.status) l).length ≤ l.length :=
    List.length_filter_le _ _
  refine ⟨?_, rfl⟩
  show l.length = (List.filter (fun tm => statusContainsRegistered tm.status) l).length
      + (l.length - (List.filter (fun tm => statusContainsRegistered tm.status) l).length)
  omega

/-! ### Path lemmas for the patents handler -/

theorem searchPatents_missing_param (st : ServerState) (now : Nat)
    (pv : AdapterOutcome PVPatent) :
    searchPatents Option.none st now pv
      = (HttpResponse.badRequest "Assignee parameter required", st, []) := rfl

theorem searchPatents_empty_param (st : ServerState) (now : Nat)
    (pv : AdapterOutcome PVPatent) :
    searchPatents (Option.some "") st now pv
      = (HttpResponse.badRequest "Assignee parameter required", st, []) := rfl

theorem searchPatents_cache_hit {a : String} (ha : a ≠ "") {st : ServerState} {now : Nat}
    (pv : AdapterOutcome PVPatent) {v : CachedData}
    (h : getCached (patentsCacheKey a) st.cache now = Option.some v) :
    searchPatents (Option.some a) st now pv = (HttpResponse.ok v, st, []) := by
  simp only [searchPatents, if_neg ha, h]

theorem searchPatents_override_hit {a : String} (ha : a ≠ "") {st : ServerState} {now : Nat}
    (pv : AdapterOutcome PVPatent) {client : ClientRecord}
    (hmiss : getCached (patentsCacheKey a) st.cache now = Option.none)
    (hdb : st.clientDatabase (normalizeClientName a) = Option.some client) :
    searchPatents (Option.some a) st now pv =
      (HttpResponse.ok (CachedData.patents
          (patentAggregate client.patents Source.client_database Option.none)),
       { st with cache := (setCache (patentsCacheKey a)
           (CachedData.patents (patentAggregate client.patents Source.client_database Option.none))
           st.cache now) },
       []) := by
  simp only [searchPatents, if_neg ha, hmiss, hdb]

theorem searchPatents_adapter_nonempty {a : String} (ha : a ≠ "") {st : ServerState} {now : Nat}
    (hmiss : getCached (patentsCacheKey a) st.cache now = Option.none)
    (hdb : st.clientDatabase (normalizeClientName a) = Option.none)
    {pats : List PVPatent} (hl : 0 < pats.length) :
    searchPatents (Option.some a) st now (AdapterOutcome.ok pats) =
      (HttpResponse.ok (CachedData.patents
          (patentAggregate (pats.map mapPVPatent) Source.uspto_api Option.none)),
       { st with cache := (setCache (patentsCacheKey a)
           (CachedData.patents (patentAggregate (pats.map mapPVPatent) Source.uspto_api Option.none))
           st.cache now) },
       ["patentsview"]) := by
  simp only [searchPatents, if_neg ha, hmiss, hdb, if_pos hl]

theorem searchPatents_adapter_empty {a : String} (ha : a ≠ "") {st : ServerState} {now : Nat}
    (hmiss : getCached (patentsCacheKey a) st.cache now = Option.none)
    (hdb : st.clientDatabase (normalizeClientName a) = Option.none)
    {pats : List PVPatent} (hl : ¬ 0 < pats.length) :
    searchPatents (Option.some a) st now (AdapterOutcome.ok pats) =
      (HttpResponse.ok (CachedData.patents patentsNoneResult), st, ["patentsview"]) := by
  simp only [searchPatents, if_neg ha, hmiss, hdb, if_neg hl]

theorem searchPatents_adapter_exn {a : String} (ha : a ≠ "") {st : ServerState} {now : Nat}
    (hmiss : getCached (patentsCacheKey a) st.cache now = Option.none)
    (hdb : st.clientDatabase (normalizeClientName a) = Option.none) (m : String) :
    searchPatents (Option.some a) st now (AdapterOutcome.exn m) =
      (HttpResponse.ok (CachedData.patents patentsNoneResult), st, ["patentsview"]) := by
  simp only [searchPatents, if_neg ha, hmiss, hdb]

/-! ### Path lemmas for the trademarks handler -/

theorem searchTrademarks_missing_param (st : ServerState) (now : Nat)
    (ts : AdapterOutcome TSDRDoc) :
    searchTrademarks Option.none st now ts
      = (HttpResponse.badRequest "Owner parameter required", st, []) := rfl

theorem searchTrademarks_empty_param (st : ServerState) (now : Nat)
    (ts : AdapterOutcome TSDRDoc) :
    searchTrademarks (Option.some "") st now ts
      = (HttpResponse.badRequest "Owner parameter required", st, []) := rfl

theorem searchTrademarks_cache_hit {o : String} (ho : o ≠ "") {st : ServerState} {now : Nat}
    (ts : AdapterOutcome TSDRDoc) {v : CachedData}
    (h : getCached (trademarksCacheKey o) st.cache now = Option.some v) :
    searchTrademarks (Option.some o) st now ts = (HttpResponse.ok v, st, []) := by
  simp only [searchTrademarks, if_neg ho, h]

theorem searchTrademarks_override_hit {o : String} (ho : o ≠ "") {st : ServerState} {now : Nat}
    (ts : AdapterOutcome TSDRDoc) {client : ClientRecord}
    (hmiss : getCached (trademarksCacheKey o) st.cache now = Option.none)
    (hdb : st.clientDatabase (normalizeClientName o) = Option.some client) :
    searchTrademarks (Option.some o) st now ts =
      (HttpResponse.ok (CachedData.trademarks
          (trademarkAggregate client.trademarks Source.client_database Option.none)),
       { st with cache := (setCache (trademarksCacheKey o)
           (CachedData.trademarks
             (trademarkAggregate client.trademarks Source.client_database Option.none))
           st.cache now) },
       []) := by
  simp only [searchTrademarks, if_neg ho, hmiss, hdb]

theorem searchTrademarks_adapter_nonempty {o : String} (ho : o ≠ "") {st : ServerState}
    {now : Nat}
    (hmiss : getCached (trademarksCacheKey o) st.cache now = Option.none)
    (hdb : st.clientDatabase (normalizeClientName o) = Option.none)
    {docs : List TSDRDoc} (hl : 0 < docs.length) :
    searchTrademarks (Option.some o) st now (AdapterOutcome.ok docs) =
      (HttpResponse.ok (CachedData.trademarks
          (trademarkAggregate (docs.map mapTSDRDoc) Source.uspto_api Option.none)),
       { st with cache := (setCache (trademarksCacheKey o)
           (CachedData.trademarks
             (trademarkAggregate (docs.map mapTSDRDoc) Source.uspto_api Option.none))
           st.cache now) },
       ["tsdr"]) := by
  simp only [searchTrademarks, if_neg ho, hmiss, hdb, if_pos hl]

theorem searchTrademarks_adapter_empty {o : String} (ho : o ≠ "") {st : ServerState} {now : Nat}
    (hmiss : getCached (trademarksCacheKey o) st.cache now = Option.none)
    (hdb : st.clientDatabase (normalizeClientName o) = Option.none)
    {docs : List TSDRDoc} (hl : ¬ 0 < docs.length) :
    searchTrademarks (Option.some o) st now (AdapterOutcome.ok docs) =
      (HttpResponse.ok (CachedData.trademarks trademarksNoneResult), st, ["tsdr"]) := by
  simp only [searchTrademarks, if_neg ho, hmiss, hdb, if_neg hl]

theorem searchTrademarks_adapter_exn {o : String} (ho : o ≠ "") {st : ServerState} {now : Nat}
    (hmiss : getCached (trademarksCacheKey o) st.cache now = Option.none)
    (hdb : st.clientDatabase (normalizeClientName o) = Option.none) (m : String) :
    searchTrademarks (Option.some o) st now (AdapterOutcome.exn m) =
      (HttpResponse.ok (CachedData.trademarks trademarksNoneResult), st, ["tsdr"]) := by
  simp only [searchTrademarks, if_neg ho, hmiss, hdb]

/-! ### Claim theorems -/

/-- Claim C1: every `SearchResult` produced by the patent-search or
trademark-search operation on a cache miss (override store, upstream
adapter, or the empty fallback) satisfies
`total = grantedOrRegistered + applications` and `total = length(list)`. -/
theorem C1_aggregate_invariant :
    (∀ (a : String) (st : ServerState) (now : Nat) (pv : AdapterOutcome PVPatent)
        (r : PatentSearchResult),
      getCached (patentsCacheKey a) st.cache now = Option.none →
      (searchPatents (Option.some a) st now pv).1 = HttpResponse.ok (CachedData.patents r) →
      r.total = r.granted + r.applications ∧ r.total = r.list.length) ∧
    (∀ (o : String) (st : ServerState) (now : Nat) (ts : AdapterOutcome TSDRDoc)
        (r : TrademarkSearchResult),
      getCached (trademarksCacheKey o) st.cache now = Option.none →
      (searchTrademarks (Option.some o) st now ts).1 = HttpResponse.ok (CachedData.trademarks r) →
      r.total = r.registered + r.applications ∧ r.total = r.list.length) := by
  constructor
  · intro a st now pv r hmiss hr
    by_cases ha : a = ""
    · subst ha; rw [searchPatents_empty_param] at hr; exact absurd hr (by simp)
    · cases hdb : st.clientDatabase (normalizeClientName a) with
      | some client =>
        rw [searchPatents_override_hit ha pv hmiss hdb] at hr
        simp only at hr
        simp only [HttpResponse.ok.injEq, CachedData.patents.injEq] at hr
        subst hr
        exact patentAggregate_invariant _ _ _
      | none =>
        cases pv with
        | ok pats =>
          by_cases hl : 0 < pats.length
          · rw [searchPatents_adapter_nonempty ha hmiss hdb hl] at hr
            simp only at hr
            simp only [HttpResponse.ok.injEq, CachedData.patents.injEq] at hr
            subst hr
            exact patentAggregate_invariant _ _ _
          · rw [searchPatents_adapter_empty ha hmiss hdb hl] at hr
            simp only at hr
            simp only [HttpResponse.ok.injEq, CachedData.patents.injEq] at hr
            subst hr
            exact ⟨rfl, rfl⟩
        | exn m =>
          rw [searchPatents_adapter_exn ha hmiss hdb m] at hr
          simp only at hr
          simp only [HttpResponse.ok.injEq, CachedData.patents.injEq] at hr
          subst hr
          exact ⟨rfl, rfl⟩
  · intro o st now ts r hmiss hr
    by_cases ho : o = ""
    · subst ho; rw [searchTrademarks_empty_param] at hr; exact absurd hr (by simp)
    · cases hdb : st.clientDatabase (normalizeClientName o) with
      | some client =>
        rw [searchTrademarks_override_hit ho ts hmiss hdb] at hr
        simp only at hr
        simp only [HttpResponse.ok.injEq, CachedData.trademarks.injEq] at hr
        subst hr
        exact trademarkAggregate_invariant _ _ _
      | none =>
        cases ts with
        | ok docs =>
          by_cases hl : 0 < docs.length
          · rw [searchTrademarks_adapter_nonempty ho hmiss hdb hl] at hr
            simp only at hr
            simp only [HttpResponse.ok.injEq, CachedData.trademarks.injEq] at hr
            subst hr
            exact trademarkAggregate_invariant _ _ _
          · rw [searchTrademarks_adapter_empty ho hmiss hdb hl] at hr
            simp only at hr
            simp only [HttpResponse.ok.injEq, CachedData.trademarks.injEq] at hr
            subst hr
            exact ⟨rfl, rfl⟩
        | exn m =>
          rw [searchTrademarks_adapter_exn ho hmiss hdb m] at hr
          simp only at hr
          simp only [HttpResponse.ok.injEq, CachedData.trademarks.injEq] at hr
          subst hr
          exact ⟨rfl, rfl⟩

/-- Claim C1 witness: the invariant evaluated on the empty fallback
aggregate that the patents handler returns for an unknown assignee. -/
theorem C1_aggregate_invariant_witness :
    patentsNoneResult.total = patentsNoneResult.granted + patentsNoneResult.applications ∧
    patentsNoneResult.total = patentsNoneResult.list.length :=
  C1_aggregate_invariant.1 "NoSuchCompany123" initialState 0 (AdapterOutcome.ok [])
    patentsNoneResult rfl (by decide)

/-- Claim C8: a missing or empty `assignee`/`owner` parameter is
rejected with HTTP 400, the state (cache and override store) is
returned unchanged, and no adapter is invoked — for every state, so the
response does not depend on any cache or override content. -/
theorem C8_missing_param_rejected :
    (∀ (st : ServerState) (now : Nat) (pv : AdapterOutcome PVPatent),
      searchPatents Option.none st now pv
        = (HttpResponse.badRequest "Assignee parameter required", st, [])) ∧
    (∀ (st : ServerState) (now : Nat) (pv : AdapterOutcome PVPatent),
      searchPatents (Option.some "") st now pv
        = (HttpResponse.badRequest "Assignee parameter required", st, [])) ∧
    (∀ (st : ServerState) (now : Nat) (ts : AdapterOutcome TSDRDoc),
      searchTrademarks Option.none st now ts
        = (HttpResponse.badRequest "Owner parameter required", st, [])) ∧
    (∀ (st : ServerState) (now : Nat) (ts : AdapterOutcome TSDRDoc),
      searchTrademarks (Option.some "") st now ts
        = (HttpResponse.badRequest "Owner parameter required", st, [])) :=
  ⟨searchPatents_missing_param, searchPatents_empty_param,
   searchTrademarks_missing_param, searchTrademarks_empty_param⟩

/-! ### Additional handler and admin helper lemmas -/

theorem searchPatents_always_ok (a : String) (st : ServerState) (now : Nat)
    (pv : AdapterOutcome PVPatent) (ha : a ≠ "") :
    ∃ body, (searchPatents (Option.some a) st now pv).1 = HttpResponse.ok body := by
  cases hc : getCached (patentsCacheKey a) st.cache now with
  | some v => exact ⟨v, by rw [searchPatents_cache_hit ha pv hc]⟩
  | none =>
    cases hdb : st.clientDatabase (normalizeClientName a) with
    | some client =>
      exact ⟨CachedData.patents (patentAggregate client.patents Source.client_database Option.none),
        by rw [searchPatents_override_hit ha pv hc hdb]⟩
    | none =>
      cases pv with
      | ok pats =>
        by_cases hl : 0 < pats.length
        · exact ⟨CachedData.patents (patentAggregate (pats.map mapPVPatent) Source.uspto_api
            Option.none), by rw [searchPatents_adapter_nonempty ha hc hdb hl]⟩
        · exact ⟨CachedData.patents patentsNoneResult,
            by rw [searchPatents_adapter_empty ha hc hdb hl]⟩
      | exn m =>
        exact ⟨CachedData.patents patentsNoneResult,
          by rw [searchPatents_adapter_exn ha hc hdb m]⟩

theorem searchTrademarks_always_ok (o : String) (st : ServerState) (now : Nat)
    (ts : AdapterOutcome TSDRDoc) (ho : o ≠ "") :
    ∃ body, (searchTrademarks (Option.some o) st now ts).1 = HttpResponse.ok body := by
  cases hc : getCached (trademarksCacheKey o) st.cache now with
  | some v => exact ⟨v, by rw [searchTrademarks_cache_hit ho ts hc]⟩
  | none =>
    cases hdb : st.clientDatabase (normalizeClientName o) with
    | some client =>
      exact ⟨CachedData.trademarks
          (trademarkAggregate client.trademarks Source.client_database Option.none),
        by rw [searchTrademarks_override_hit ho ts hc hdb]⟩
    | none =>
      cases ts with
      | ok docs =>
        by_cases hl : 0 < docs.length
        · exact ⟨CachedData.trademarks (trademarkAggregate (docs.map mapTSDRDoc) Source.uspto_api
            Option.none), by rw [searchTrademarks_adapter_nonempty ho hc hdb hl]⟩
        · exact ⟨CachedData.trademarks trademarksNoneResult,
            by rw [searchTrademarks_adapter_empty ho hc hdb hl]⟩
      | exn m =>
        exact ⟨CachedData.trademarks trademarksNoneResult,
          by rw [searchTrademarks_adapter_exn ho hc hdb m]⟩

theorem adminUpsert_cache_eq (name : Option String) (patents : Option (List PatentRecord))
    (trademarks : Option (List TrademarkRecord)) (st : ServerState) :
    ((adminUpsertClient name patents trademarks st).2).cache = st.cache := by
  cases name with
  | none => rfl
  | some n =>
    by_cases h : n = ""
    · simp [adminUpsertClient, h]
    · simp [adminUpsertClient, h]

theorem adminDelete_cache_eq (name : String) (st : ServerState) :
    ((adminDeleteClient name st).2).cache = st.cache := by
  unfold adminDeleteClient
  cases h : st.clientDatabase (normalizeClientName name) <;> simp [h]

/-- A sample state whose cache holds a live entry for `patents:acme`
(written at time 0). -/
def cachedState : ServerState :=
  { initialState with cache := (setCache (patentsCacheKey "Acme")
      (CachedData.patents patentsNoneResult) initialState.cache 0) }

/-- Claim C2 counterexample: resolving an unknown assignee with the
adapter returning zero records concludes with the `source = none`
aggregate, but nothing is written to the cache — the request cache key
is still absent from the returned state, contradicting the claimed
`CACHE_WRITE` of `none` outcomes. -/
theorem C2_cex_none_outcome_not_cached :
    (searchPatents (Option.some "NoSuchCompany123") initialState 0 (AdapterOutcome.ok [])).1
      = HttpResponse.ok (CachedData.patents patentsNoneResult) ∧
    (searchPatents (Option.some "NoSuchCompany123") initialState 0
        (AdapterOutcome.ok [])).2.1.cache (patentsCacheKey "NoSuchCompany123")
      = Option.none :=
  ⟨by decide, rfl⟩

/-- Claim C2 (amended): a resolution that reaches the end of the adapter
chain with zero records (or an adapter failure) returns the
`source = none` aggregate WITHOUT writing it to the cache: the state
comes back unchanged, so a second identical request within the TTL
re-invokes the adapter instead of being served from cache. -/
theorem C2_none_outcome_not_cached :
    (∀ (a : String) (st : ServerState) (now : Nat),
      a ≠ "" →
      getCached (patentsCacheKey a) st.cache now = Option.none →
      st.clientDatabase (normalizeClientName a) = Option.none →
      searchPatents (Option.some a) st now (AdapterOutcome.ok [])
        = (HttpResponse.ok (CachedData.patents patentsNoneResult), st, ["patentsview"]) ∧
      (∀ m, searchPatents (Option.some a) st now (AdapterOutcome.exn m)
        = (HttpResponse.ok (CachedData.patents patentsNoneResult), st, ["patentsview"]))) ∧
    (∀ (o : String) (st : ServerState) (now : Nat),
      o ≠ "" →
      getCached (trademarksCacheKey o) st.cache now = Option.none →
      st.clientDatabase (normalizeClientName o) = Option.none →
      searchTrademarks (Option.some o) st now (AdapterOutcome.ok [])
        = (HttpResponse.ok (CachedData.trademarks trademarksNoneResult), st, ["tsdr"]) ∧
      (∀ m, searchTrademarks (Option.some o) st now (AdapterOutcome.exn m)
        = (HttpResponse.ok (CachedData.trademarks trademarksNoneResult), st, ["tsdr"]))) :=
  ⟨fun _ _ _ ha hmiss hdb =>
    ⟨searchPatents_adapter_empty ha hmiss hdb (by simp),
     fun m => searchPatents_adapter_exn ha hmiss hdb m⟩,
   fun _ _ _ ho hmiss hdb =>
    ⟨searchTrademarks_adapter_empty ho hmiss hdb (by simp),
     fun m => searchTrademarks_adapter_exn ho hmiss hdb m⟩⟩

/-- Claim C2 witness: the (amended) behavior at a concrete unknown
assignee. -/
theorem C2_none_outcome_not_cached_witness :
    searchPatents (Option.some "NoSuchCompany123") initialState 0 (AdapterOutcome.ok [])
      = (HttpResponse.ok (CachedData.patents patentsNoneResult), initialState, ["patentsview"]) :=
  (C2_none_outcome_not_cached.1 "NoSuchCompany123" initialState 0 (by decide) rfl (by decide)).1

/-- Claim C3 counterexample: with the (single) adapter returning an
empty list the resolution concludes `source = none` while the adapter
trace is exactly `["patentsview"]` — no second (granted-patent search)
adapter is invoked before concluding, because none exists in this code. -/
theorem C3_cex_no_second_adapter :
    (searchPatents (Option.some "Acme") initialState 0 (AdapterOutcome.ok [])).1
      = HttpResponse.ok (CachedData.patents patentsNoneResult) ∧
    patentsNoneResult.source = Source.none ∧
    (searchPatents (Option.some "Acme") initialState 0 (AdapterOutcome.ok [])).2.2
      = ["patentsview"] :=
  ⟨by decide, rfl, by decide⟩

/-- Claim C3 (amended): the patent resolution has exactly one upstream
adapter, the PatentsView query.  On a cache and override miss it is
always invoked (the trace is exactly `["patentsview"]` for every
outcome, so no second adapter is ever invoked); a non-empty record list
becomes the result with `source = uspto_api`; an empty list or a
failure concludes the resolution directly with `source = none`. -/
theorem C3_single_adapter_fallback :
    ∀ (a : String) (st : ServerState) (now : Nat),
      a ≠ "" →
      getCached (patentsCacheKey a) st.cache now = Option.none →
      st.clientDatabase (normalizeClientName a) = Option.none →
      (∀ pv : AdapterOutcome PVPatent,
        (searchPatents (Option.some a) st now pv).2.2 = ["patentsview"]) ∧
      (∀ pats : List PVPatent, 0 < pats.length →
        (searchPatents (Option.some a) st now (AdapterOutcome.ok pats)).1
          = HttpResponse.ok (CachedData.patents
              (patentAggregate (pats.map mapPVPatent) Source.uspto_api Option.none))) ∧
      (searchPatents (Option.some a) st now (AdapterOutcome.ok [])).1
        = HttpResponse.ok (CachedData.patents patentsNoneResult) ∧
      (∀ m, (searchPatents (Option.some a) st now (AdapterOutcome.exn m)).1
        = HttpResponse.ok (CachedData.patents patentsNoneResult)) := by
  intro a st now ha hmiss hdb
  refine ⟨?_, ?_, ?_, ?_⟩
  · intro pv
    cases pv with
    | ok pats =>
      by_cases hl : 0 < pats.length
      · rw [searchPatents_adapter_nonempty ha hmiss hdb hl]
      · rw [searchPatents_adapter_empty ha hmiss hdb hl]
    | exn m => rw [searchPatents_adapter_exn ha hmiss hdb m]
  · intro pats hl
    rw [searchPatents_adapter_nonempty ha hmiss hdb hl]
  · rw [searchPatents_adapter_empty ha hmiss hdb (by simp)]
  · intro m
    rw [searchPatents_adapter_exn ha hmiss hdb m]

/-- Claim C3 witness: the trace conjunct at a concrete failing adapter
outcome. -/
theorem C3_single_adapter_fallback_witness :
    (searchPatents (Option.some "Acme") initialState 0 (AdapterOutcome.exn "timeout")).2.2
      = ["patentsview"] :=
  (C3_single_adapter_fallback "Acme" initialState 0 (by decide) rfl (by decide)).1
    (AdapterOutcome.exn "timeout")

/-- Claim C4 counterexample: an adapter exception with message `boom`
produces a 200 response whose body is the generic `source = none`
aggregate: the source is not `error` and the message does not carry the
exception text. -/
theorem C4_cex_exn_swallowed :
    (searchPatents (Option.some "Acme") initialState 0 (AdapterOutcome.exn "boom")).1
      = HttpResponse.ok (CachedData.patents patentsNoneResult) ∧
    patentsNoneResult.source ≠ Source.error ∧
    patentsNoneResult.message ≠ Option.some "boom" :=
  ⟨by decide, by decide, by decide⟩

/-- Claim C4 (amended): when an adapter throws, the operation still
returns successfully — with the required parameter present the response
is always `ok` (HTTP 200), and only a missing/empty parameter is
rejected with 400 before resolution — but the exception is swallowed
(only logged): the body is the generic `source = none` fallthrough
aggregate, not `source = error`, and the message is not carried
through. -/
theorem C4_adapter_exception_degrades_to_none :
    (∀ (a : String) (st : ServerState) (now : Nat) (m : String),
      a ≠ "" →
      getCached (patentsCacheKey a) st.cache now = Option.none →
      st.clientDatabase (normalizeClientName a) = Option.none →
      searchPatents (Option.some a) st now (AdapterOutcome.exn m)
        = (HttpResponse.ok (CachedData.patents patentsNoneResult), st, ["patentsview"])) ∧
    (∀ (o : String) (st : ServerState) (now : Nat) (m : String),
      o ≠ "" →
      getCached (trademarksCacheKey o) st.cache now = Option.none →
      st.clientDatabase (normalizeClientName o) = Option.none →
      searchTrademarks (Option.some o) st now (AdapterOutcome.exn m)
        = (HttpResponse.ok (CachedData.trademarks trademarksNoneResult), st, ["tsdr"])) ∧
    (∀ (a : String) (st : ServerState) (now : Nat) (pv : AdapterOutcome PVPatent),
      a ≠ "" → ∃ body, (searchPatents (Option.some a) st now pv).1 = HttpResponse.ok body) ∧
    (∀ (o : String) (st : ServerState) (now : Nat) (ts : AdapterOutcome TSDRDoc),
      o ≠ "" → ∃ body, (searchTrademarks (Option.some o) st now ts).1 = HttpResponse.ok body) ∧
    (∀ (st : ServerState) (now : Nat) (pv : AdapterOutcome PVPatent),
      searchPatents Option.none st now pv
        = (HttpResponse.badRequest "Assignee parameter required", st, [])) ∧
    (∀ (st : ServerState) (now : Nat) (ts : AdapterOutcome TSDRDoc),
      searchTrademarks Option.none st now ts
        = (HttpResponse.badRequest "Owner parameter required", st, [])) :=
  ⟨fun _ _ _ m ha hmiss hdb => searchPatents_adapter_exn ha hmiss hdb m,
   fun _ _ _ m ho hmiss hdb => searchTrademarks_adapter_exn ho hmiss hdb m,
   fun a st now pv ha => searchPatents_always_ok a st now pv ha,
   fun o st now ts ho => searchTrademarks_always_ok o st now ts ho,
   searchPatents_missing_param, searchTrademarks_missing_param⟩

/-- Claim C4 witness: the exception path at a concrete input. -/
theorem C4_adapter_exception_degrades_to_none_witness :
    searchPatents (Option.some "Acme") initialState 0 (AdapterOutcome.exn "boom")
      = (HttpResponse.ok (CachedData.patents patentsNoneResult), initialState, ["patentsview"]) :=
  C4_adapter_exception_degrades_to_none.1 "Acme" initialState 0 "boom" (by decide) rfl (by decide)

/-- Claim C5: an override record for the normalized term pre-empts the
adapters: on a cache miss the aggregate is built directly from the
stored list with `source = client_database`, written to the cache, and
no adapter is invoked (empty trace, identical outcome for every adapter
outcome). -/
theorem C5_override_preempts_adapters :
    (∀ (a : String) (st : ServerState) (now : Nat) (pv : AdapterOutcome PVPatent)
        (client : ClientRecord),
      a ≠ "" →
      getCached (patentsCacheKey a) st.cache now = Option.none →
      st.clientDatabase (normalizeClientName a) = Option.some client →
      searchPatents (Option.some a) st now pv =
        (HttpResponse.ok (CachedData.patents
            (patentAggregate client.patents Source.client_database Option.none)),
         { st with cache := (setCache (patentsCacheKey a)
             (CachedData.patents
               (patentAggregate client.patents Source.client_database Option.none))
             st.cache now) },
         [])) ∧
    (∀ (o : String) (st : ServerState) (now : Nat) (ts : AdapterOutcome TSDRDoc)
        (client : ClientRecord),
      o ≠ "" →
      getCached (trademarksCacheKey o) st.cache now = Option.none →
      st.clientDatabase (normalizeClientName o) = Option.some client →
      searchTrademarks (Option.some o) st now ts =
        (HttpResponse.ok (CachedData.trademarks
            (trademarkAggregate client.trademarks Source.client_database Option.none)),
         { st with cache := (setCache (trademarksCacheKey o)
             (CachedData.trademarks
               (trademarkAggregate client.trademarks Source.client_database Option.none))
             st.cache now) },
         [])) :=
  ⟨fun _ _ _ pv _ ha hmiss hdb => searchPatents_override_hit ha pv hmiss hdb,
   fun _ _ _ ts _ ho hmiss hdb => searchTrademarks_override_hit ho ts hmiss hdb⟩

/-- Claim C5 witness: the seeded KidneyAide override answers the patent
search even though the adapter would throw. -/
theorem C5_override_preempts_adapters_witness :
    searchPatents (Option.some "KidneyAide") initialState 0 (AdapterOutcome.exn "x") =
      (HttpResponse.ok (CachedData.patents
          (patentAggregate kidneyAideRecord.patents Source.client_database Option.none)),
       { initialState with cache := (setCache (patentsCacheKey "KidneyAide")
           (CachedData.patents
             (patentAggregate kidneyAideRecord.patents Source.client_database Option.none))
           initialState.cache 0) },
       []) :=
  C5_override_preempts_adapters.1 "KidneyAide" initialState 0 (AdapterOutcome.exn "x")
    kidneyAideRecord (by decide) rfl (by decide)

/-- Claim C6: `getCached` returns the stored value exactly when
`now - createdAt < CACHE_TTL` (3600 seconds, stored in milliseconds)
and otherwise behaves as absent (it is a pure read and cannot delete);
on a cache hit the handler returns the cached value directly with the
state unchanged, an empty adapter trace, and the same response for
every adapter outcome (no override lookup can influence it). -/
theorem C6_cache_ttl_and_hit :
    (∀ (key : String) (cache : String → Option CacheEntry) (now : Nat) (v : CachedData),
      getCached key cache now = Option.some v ↔
        ∃ e, cache key = Option.some e ∧ now - e.timestamp < CACHE_TTL ∧ v = e.data) ∧
    CACHE_TTL = 3600 * 1000 ∧
    (∀ (a : String) (st : ServerState) (now : Nat) (pv : AdapterOutcome PVPatent)
        (v : CachedData),
      a ≠ "" →
      getCached (patentsCacheKey a) st.cache now = Option.some v →
      searchPatents (Option.some a) st now pv = (HttpResponse.ok v, st, [])) ∧
    (∀ (o : String) (st : ServerState) (now : Nat) (ts : AdapterOutcome TSDRDoc)
        (v : CachedData),
      o ≠ "" →
      getCached (trademarksCacheKey o) st.cache now = Option.some v →
      searchTrademarks (Option.some o) st now ts = (HttpResponse.ok v, st, [])) := by
  refine ⟨?_, rfl, fun _ _ _ pv v ha h => searchPatents_cache_hit ha pv h,
    fun _ _ _ ts v ho h => searchTrademarks_cache_hit ho ts h⟩
  intro key cache now v
  unfold getCached
  cases h : cache key with
  | none => simp
  | some e =>
    by_cases ht : now - e.timestamp < CACHE_TTL
    · simp [ht, eq_comm]
    · simp [ht]

/-- Claim C6 witness: a live entry written at time 0 is served at time 5
with the state unchanged. -/
theorem C6_cache_ttl_and_hit_witness :
    searchPatents (Option.some "Acme") cachedState 5 (AdapterOutcome.exn "x")
      = (HttpResponse.ok (CachedData.patents patentsNoneResult), cachedState, []) :=
  C6_cache_ttl_and_hit.2.2.1 "Acme" cachedState 5 (AdapterOutcome.exn "x")
    (CachedData.patents patentsNoneResult) (by decide) rfl

/-- Claim C9: admin upsert and delete mutate only the override store —
the TTL cache field is untouched — and a live cached result for a
matching cache key is still served as-is after the admin write or
delete, without consulting the updated or deleted override record (the
response is the cached value, the trace is empty, and the outcome is
the same for every adapter outcome). -/
theorem C9_admin_writes_leave_cache_unchanged :
    (∀ (name : Option String) (patents : Option (List PatentRecord))
        (trademarks : Option (List TrademarkRecord)) (st : ServerState),
      ((adminUpsertClient name patents trademarks st).2).cache = st.cache) ∧
    (∀ (name : String) (st : ServerState),
      ((adminDeleteClient name st).2).cache = st.cache) ∧
    (∀ (name : Option String) (patents : Option (List PatentRecord))
        (trademarks : Option (List TrademarkRecord)) (st : ServerState) (now : Nat)
        (a : String) (pv : AdapterOutcome PVPatent) (v : CachedData),
      a ≠ "" →
      getCached (patentsCacheKey a) st.cache now = Option.some v →
      searchPatents (Option.some a) ((adminUpsertClient name patents trademarks st).2) now pv
        = (HttpResponse.ok v, (adminUpsertClient name patents trademarks st).2, [])) ∧
    (∀ (name : String) (st : ServerState) (now : Nat) (a : String)
        (pv : AdapterOutcome PVPatent) (v : CachedData),
      a ≠ "" →
      getCached (patentsCacheKey a) st.cache now = Option.some v →
      searchPatents (Option.some a) ((adminDeleteClient name st).2) now pv
        = (HttpResponse.ok v, (adminDeleteClient name st).2, [])) := by
  refine ⟨adminUpsert_cache_eq, adminDelete_cache_eq, ?_, ?_⟩
  · intro name patents trademarks st now a pv v ha h
    exact searchPatents_cache_hit ha pv (by rw [adminUpsert_cache_eq]; exact h)
  · intro name st now a pv v ha h
    exact searchPatents_cache_hit ha pv (by rw [adminDelete_cache_eq]; exact h)

/-- Claim C9 witness: upserting an override for `Acme` does not disturb
the live cached `patents:acme` entry, which is still served as-is. -/
theorem C9_admin_writes_leave_cache_unchanged_witness :
    searchPatents (Option.some "Acme")
        ((adminUpsertClient (Option.some "Acme") Option.none Option.none cachedState).2) 5
        (AdapterOutcome.exn "x")
      = (HttpResponse.ok (CachedData.patents patentsNoneResult),
         (adminUpsertClient (Option.some "Acme") Option.none Option.none cachedState).2, []) :=
  C9_admin_writes_leave_cache_unchanged.2.2.1 (Option.some "Acme") Option.none Option.none
    cachedState 5 "Acme" (AdapterOutcome.exn "x") (CachedData.patents patentsNoneResult)
    (by decide) rfl

/-- Claim C10: a non-empty name with no alphanumeric character passes
the admin name-presence validation and is stored at the empty-string
key (so all such names collide on that single record — each upsert
replaces it, for every starting state); a subsequent patent or
trademark search (on a cache miss) whose term also normalizes to the
empty string is answered from that record with
`source = client_database`. -/
theorem C10_empty_normalized_key_collision :
    ∀ (n : String) (patents : Option (List PatentRecord))
      (trademarks : Option (List TrademarkRecord)) (st : ServerState),
      n ≠ "" →
      normalizeClientName n = "" →
      (adminUpsertClient (Option.some n) patents trademarks st).1
          = HttpResponse.ok ("Client added successfully", "") ∧
      ((adminUpsertClient (Option.some n) patents trademarks st).2).clientDatabase ""
          = Option.some { name := n, patents := patents.getD [], trademarks := trademarks.getD [] } ∧
      (∀ (a : String) (now : Nat) (pv : AdapterOutcome PVPatent),
        a ≠ "" →
        normalizeClientName a = "" →
        getCached (patentsCacheKey a)
            ((adminUpsertClient (Option.some n) patents trademarks st).2).cache now
          = Option.none →
        (searchPatents (Option.some a)
            ((adminUpsertClient (Option.some n) patents trademarks st).2) now pv).1
          = HttpResponse.ok (CachedData.patents
              (patentAggregate (patents.getD []) Source.client_database Option.none))) ∧
      (∀ (o : String) (now : Nat) (ts : AdapterOutcome TSDRDoc),
        o ≠ "" →
        normalizeClientName o = "" →
        getCached (trademarksCacheKey o)
            ((adminUpsertClient (Option.some n) patents trademarks st).2).cache now
          = Option.none →
        (searchTrademarks (Option.some o)
            ((adminUpsertClient (Option.some n) patents trademarks st).2) now ts).1
          = HttpResponse.ok (CachedData.trademarks
              (trademarkAggregate (trademarks.getD []) Source.client_database Option.none))) := by
  intro n patents trademarks st hn hnorm
  have hdbfun : ((adminUpsertClient (Option.some n) patents trademarks st).2).clientDatabase
      = fun k => if k = "" then
          Option.some { name := n, patents := patents.getD [], trademarks := trademarks.getD [] }
        else st.clientDatabase k := by
    simp only [adminUpsertClient, if_neg hn, hnorm]
  refine ⟨?_, ?_, ?_, ?_⟩
  · simp only [adminUpsertClient, if_neg hn, hnorm]
  · rw [hdbfun]; simp
  · intro a now pv ha hna hmiss
    have hdb : ((adminUpsertClient (Option.some n) patents trademarks st).2).clientDatabase
        (normalizeClientName a)
        = Option.some { name := n, patents := patents.getD [], trademarks := trademarks.getD [] } := by
      rw [hdbfun, hna]; simp
    rw [searchPatents_override_hit ha pv hmiss hdb]
  · intro o now ts ho hno hmiss
    have hdb : ((adminUpsertClient (Option.some n) patents trademarks st).2).clientDatabase
        (normalizeClientName o)
        = Option.some { name := n, patents := patents.getD [], trademarks := trademarks.getD [] } := by
      rw [hdbfun, hno]; simp
    rw [searchTrademarks_override_hit ho ts hmiss hdb]

/-- Claim C10 witness: the name `!!!` (no alphanumeric characters) is
accepted, stored at key `""`, and a search for `???` is answered from
that record. -/
theorem C10_empty_normalized_key_collision_witness :
    (adminUpsertClient (Option.some "!!!") Option.none Option.none initialState).1
        = HttpResponse.ok ("Client added successfully", "") ∧
    ((adminUpsertClient (Option.some "!!!") Option.none Option.none initialState).2).clientDatabase
        "" = Option.some { name := "!!!", patents := [], trademarks := [] } ∧
    (searchPatents (Option.some "???")
        ((adminUpsertClient (Option.some "!!!") Option.none Option.none initialState).2) 0
        (AdapterOutcome.exn "x")).1
      = HttpResponse.ok (CachedData.patents
          (patentAggregate [] Source.client_database Option.none)) := by
  have h := C10_empty_normalized_key_collision "!!!" Option.none Option.none initialState
    (by decide) (by decide)
  exact ⟨h.1, h.2.1, h.2.2.1 "???" 0 (AdapterOutcome.exn "x") (by decide) (by decide) rfl⟩

end USPTO
